import Mathlib

/-!
Verification of the darkwall-drun embedded terminal emulator and PTY layer.

This file gives a shallow embedding, in Lean, of the terminal/PTY core of
the repository (src/terminal/mod.rs, src/terminal/input.rs, src/pty.rs,
src/executor.rs) and proves the specified properties about it.

The `EmbeddedTerminal` structure and its operations are translated directly
from `impl EmbeddedTerminal` in src/terminal/mod.rs.  The termwiz `Surface`
is an external crate; the subset of `Change`s the repository issues
(CursorPosition, AllAttributes, Text, ClearToEndOfLine, ClearScreen,
ScrollRegionUp, ScrollRegionDown) is modelled here with conventional
termwiz semantics.  Rust `usize` arithmetic is modelled with `Nat`
(saturating where the source saturates); grids are lists of rows of cells.
-/

set_option maxRecDepth 4000

namespace Darkwall

/-- termwiz `ColorAttribute` as used by the SGR and erase handlers. -/
inductive ColorAttr where
  | Default
  | PaletteIndex (i : Nat)
  | TrueColor (r g b : Nat)
deriving DecidableEq, Repr

/-- termwiz `Intensity`. -/
inductive Intensity where
  | Normal
  | Bold
  | Half
deriving DecidableEq, Repr

/-- termwiz underline kind. -/
inductive UnderlineKind where
  | NoUnderline
  | Single
  | Double
  | Curly
  | Dotted
  | Dashed
deriving DecidableEq, Repr

/-- termwiz blink kind. -/
inductive BlinkKind where
  | NoBlink
  | Slow
  | Rapid
deriving DecidableEq, Repr

/-- termwiz `CellAttributes`: the attribute set carried by every cell and by
the current pen. -/
structure CellAttributes where
  foreground : ColorAttr
  background : ColorAttr
  intensity : Intensity
  italic : Bool
  underline : UnderlineKind
  blink : BlinkKind
  reverse : Bool
  invisible : Bool
  strikethrough : Bool
  overline : Bool
  underline_color : ColorAttr
deriving DecidableEq, Repr

/-- `CellAttributes::default()`. -/
def CellAttributes.default : CellAttributes :=
  ⟨ColorAttr.Default, ColorAttr.Default, Intensity.Normal, false,
   UnderlineKind.NoUnderline, BlinkKind.NoBlink, false, false, false, false,
   ColorAttr.Default⟩

/-- One grid position.  The Rust `Cell` stores a grapheme string; every write
performed by this code path stores a single character, so the text is
modelled as a `Char`. -/
structure Cell where
  ch : Char
  attrs : CellAttributes
deriving DecidableEq, Repr

/-- `Cell::default()`: a blank (space) cell with default attributes. -/
def Cell.blank : Cell := ⟨' ', CellAttributes.default⟩

/-- The blank cell used by termwiz clear operations: a space whose
attributes are default except for the requested background colour. -/
def Cell.blankWith (c : ColorAttr) : Cell :=
  ⟨' ', { CellAttributes.default with background := c }⟩

/-- A fully blank row of the given width. -/
def blankRow (w : Nat) : List Cell := List.replicate w Cell.blank

/-- The termwiz `Surface`: a grid of cells plus the surface cursor position
and the surface-level current attributes (set by `Change::AllAttributes`
and consumed by `Change::Text`). -/
structure Surface where
  width : Nat
  height : Nat
  grid : List (List Cell)
  xpos : Nat
  ypos : Nat
  attrs : CellAttributes
deriving DecidableEq, Repr

/-- `Surface::new(w, h)`: a blank surface. -/
def Surface.new (w h : Nat) : Surface :=
  ⟨w, h, List.replicate h (blankRow w), 0, 0, CellAttributes.default⟩

/-- Replace row `y` of a grid by `f` applied to it (no-op when out of range). -/
def updateRow (g : List (List Cell)) (y : Nat) (f : List Cell → List Cell) :
    List (List Cell) :=
  g.set y (f (g.getD y []))

/-- `Change::CursorPosition` with absolute coordinates: termwiz clamps each
coordinate to the surface bounds. -/
def Surface.setCursor (s : Surface) (x y : Nat) : Surface :=
  { s with xpos := min x (s.width - 1), ypos := min y (s.height - 1) }

/-- `Change::AllAttributes`. -/
def Surface.setAttrs (s : Surface) (a : CellAttributes) : Surface :=
  { s with attrs := a }

/-- Internal scroll of the whole surface by one row (used by termwiz when
text wraps past the bottom). -/
def Surface.scrollUpInternal (s : Surface) : Surface :=
  { s with grid := s.grid.tail ++ [blankRow s.width] }

/-- Write one character at the surface cursor with the surface attributes,
advancing the cursor; wraps to the next line (scrolling at the bottom) when
the cursor has run past the right edge. -/
def Surface.putChar (s : Surface) (c : Char) : Surface :=
  let s :=
    if s.width ≤ s.xpos then
      let s := { s with xpos := 0, ypos := s.ypos + 1 }
      if s.height ≤ s.ypos then
        { s.scrollUpInternal with ypos := s.height - 1 }
      else s
    else s
  { s with
    grid := updateRow s.grid s.ypos (fun row => row.set s.xpos ⟨c, s.attrs⟩),
    xpos := s.xpos + 1 }

/-- `Change::Text`: write a string character by character. -/
def Surface.putText (s : Surface) (str : String) : Surface :=
  str.data.foldl Surface.putChar s

/-- `Change::ClearToEndOfLine(color)`: cells from the surface cursor to the
end of the current row become blanks with the given background colour. -/
def Surface.clearToEndOfLine (s : Surface) (c : ColorAttr) : Surface :=
  { s with
    grid := updateRow s.grid s.ypos (fun row =>
      row.take s.xpos ++ List.replicate (row.length - s.xpos) (Cell.blankWith c)) }

/-- `Change::ClearScreen(color)`: every cell becomes a blank with the given
background colour and the surface cursor moves home. -/
def Surface.clearScreen (s : Surface) (c : ColorAttr) : Surface :=
  { s with
    grid := s.grid.map (fun row => List.replicate row.length (Cell.blankWith c)),
    xpos := 0, ypos := 0 }

/-- `Change::ScrollRegionUp { first_row, region_size, scroll_count }`:
rows of the region shift up, vacated rows at the bottom become blank. -/
def Surface.scrollRegionUp (s : Surface) (first size count : Nat) : Surface :=
  let before := s.grid.take first
  let region := (s.grid.drop first).take size
  let after := s.grid.drop (first + size)
  { s with
    grid := before ++
      (region.drop count ++ List.replicate (min count region.length) (blankRow s.width)) ++
      after }

/-- `Change::ScrollRegionDown`: rows of the region shift down, vacated rows
at the top become blank. -/
def Surface.scrollRegionDown (s : Surface) (first size count : Nat) : Surface :=
  let before := s.grid.take first
  let region := (s.grid.drop first).take size
  let after := s.grid.drop (first + size)
  { s with
    grid := before ++
      (List.replicate (min count region.length) (blankRow s.width) ++
        region.take (region.length - count)) ++
      after }

/-- `Surface::resize`: the grid is truncated or padded to the new size and
the surface cursor is clamped into bounds. -/
def Surface.resize (s : Surface) (w h : Nat) : Surface :=
  let grid := (s.grid.map (fun row => row.take w ++ List.replicate (w - row.length) Cell.blank)).take h
  let grid := grid ++ List.replicate (h - grid.length) (blankRow w)
  { s with width := w, height := h, grid := grid,
           xpos := min s.xpos (w - 1), ypos := min s.ypos (h - 1) }

/-- `TerminalConfig` from src/terminal/mod.rs. -/
structure TerminalConfig where
  cols : Nat
  rows : Nat
  scrollback : Nat
  alternate_screen : Bool
deriving DecidableEq, Repr

/-- `TerminalConfig::default()`. -/
def TerminalConfig.defaultCfg : TerminalConfig := ⟨80, 24, 10000, true⟩

/-- Cursor position (column, row), zero-indexed. -/
structure CursorPosition where
  col : Nat
  row : Nat
deriving DecidableEq, Repr

/-- The only keyboard encoding the code ever uses (`KeyboardEncoding::Xterm`). -/
inductive KeyboardEncoding where
  | Xterm
deriving DecidableEq, Repr

/-- The `EmbeddedTerminal` state from src/terminal/mod.rs (the termwiz
`Parser` is stateful byte-level machinery; this embedding works at the level
of the parsed `Action`s it produces). -/
structure EmbeddedTerminal where
  surface : Surface
  config : TerminalConfig
  cursor : CursorPosition
  scrollback : List (List Cell)
  scroll_offset : Nat
  in_alternate_screen : Bool
  saved_primary : Option Surface
  follow_mode : Bool
  current_attrs : CellAttributes
  saved_cursor : Option CursorPosition
  application_cursor_keys : Bool
  newline_mode : Bool
  keyboard_encoding : KeyboardEncoding
  mouse_reporting : Bool
deriving DecidableEq, Repr

namespace EmbeddedTerminal

/-- `EmbeddedTerminal::new(config)`. -/
def new (config : TerminalConfig) : EmbeddedTerminal :=
  { surface := Surface.new config.cols config.rows
    config := config
    cursor := ⟨0, 0⟩
    scrollback := []
    scroll_offset := 0
    in_alternate_screen := false
    saved_primary := none
    follow_mode := true
    current_attrs := CellAttributes.default
    saved_cursor := none
    application_cursor_keys := false
    newline_mode := false
    keyboard_encoding := KeyboardEncoding.Xterm
    mouse_reporting := false }

/-- `resize(cols, rows)`: updates the config dimensions and resizes the
surface.  Note: it does not touch `cursor`. -/
def resize (t : EmbeddedTerminal) (cols rows : Nat) : EmbeddedTerminal :=
  { t with
    config := { t.config with cols := cols, rows := rows }
    surface := t.surface.resize cols rows }

/-- `push_to_scrollback(line)`: append and then, while the length exceeds
the configured capacity, remove the oldest entry (`remove(0)`); the loop is
expressed as dropping the excess oldest entries in one step. -/
def push_to_scrollback (t : EmbeddedTerminal) (line : List Cell) : EmbeddedTerminal :=
  let sb := t.scrollback ++ [line]
  { t with scrollback := sb.drop (sb.length - t.config.scrollback) }

/-- One iteration of the loop in `scroll_screen_up`: archive the top line
(when the surface has one), scroll the full screen region up by one, and
clear the bottom line. -/
def scroll_screen_up_once (t : EmbeddedTerminal) : EmbeddedTerminal :=
  let t :=
    match t.surface.grid with
    | [] => t
    | top :: _ =>
      t.push_to_scrollback ((List.range t.config.cols).map (fun i => top.getD i Cell.blank))
  let s := t.surface.scrollRegionUp 0 t.config.rows 1
  let s := s.setCursor 0 (t.config.rows - 1)
  let s := s.clearToEndOfLine ColorAttr.Default
  { t with surface := s }

/-- `scroll_screen_up(n)`. -/
def scroll_screen_up : EmbeddedTerminal → Nat → EmbeddedTerminal
  | t, 0 => t
  | t, n + 1 => scroll_screen_up t.scroll_screen_up_once n

/-- `total_lines()`. -/
def total_lines (t : EmbeddedTerminal) : Nat :=
  t.scrollback.length + t.config.rows

/-- `set_scroll_offset(offset)`. -/
def set_scroll_offset (t : EmbeddedTerminal) (offset : Nat) : EmbeddedTerminal :=
  let t := { t with scroll_offset := min offset t.scrollback.length }
  if 0 < t.scroll_offset then { t with follow_mode := false } else t

/-- `scroll_up(lines)`: scroll the viewport into history. -/
def scroll_up (t : EmbeddedTerminal) (lines : Nat) : EmbeddedTerminal :=
  { t with
    scroll_offset := min (t.scroll_offset + lines) t.scrollback.length
    follow_mode := false }

/-- `scroll_down(lines)`: scroll the viewport toward the live output. -/
def scroll_down (t : EmbeddedTerminal) (lines : Nat) : EmbeddedTerminal :=
  let t := { t with scroll_offset := t.scroll_offset - lines }
  if t.scroll_offset = 0 then { t with follow_mode := true } else t

/-- `scroll_to_bottom()`. -/
def scroll_to_bottom (t : EmbeddedTerminal) : EmbeddedTerminal :=
  { t with scroll_offset := 0, follow_mode := true }

/-- `is_at_bottom()`. -/
def is_at_bottom (t : EmbeddedTerminal) : Bool :=
  t.scroll_offset = 0

/-- `on_content_added()`: snap to the bottom while follow mode is on. -/
def on_content_added (t : EmbeddedTerminal) : EmbeddedTerminal :=
  if t.follow_mode then t.scroll_to_bottom else t

/-- `clear()`: reset scrollback, scroll offset, cursor, pen, and recreate
the surface; every other field is untouched. -/
def clear (t : EmbeddedTerminal) : EmbeddedTerminal :=
  { t with
    scrollback := []
    scroll_offset := 0
    cursor := ⟨0, 0⟩
    current_attrs := CellAttributes.default
    surface := Surface.new t.config.cols t.config.rows }

end EmbeddedTerminal

/-- Single-byte control characters (termwiz `ControlCode`), with one
constructor standing for all codes the `match` in `handle_control`
ignores via its wildcard arm. -/
inductive ControlCode where
  | Null
  | Bell
  | Backspace
  | HorizontalTab
  | LineFeed
  | VerticalTab
  | FormFeed
  | CarriageReturn
  | OtherControl
deriving DecidableEq, Repr

/-- termwiz CSI cursor operations as matched in `handle_cursor`.  OneBased
wire values are carried as the raw `Nat` the decoder produced. -/
inductive CursorOp where
  | Up (n : Nat)
  | Down (n : Nat)
  | Left (n : Nat)
  | Right (n : Nat)
  | Position (line col : Nat)
  | CharacterAndLinePosition (line col : Nat)
  | CharacterPositionAbsolute (col : Nat)
  | CharacterAbsolute (col : Nat)
  | LinePositionAbsolute (row : Nat)
  | SaveCursor
  | RestoreCursor
  | NextLine (n : Nat)
  | PrecedingLine (n : Nat)
  | CharacterPositionForward (n : Nat)
  | CharacterPositionBackward (n : Nat)
  | LinePositionForward (n : Nat)
  | LinePositionBackward (n : Nat)
  | OtherCursor
deriving DecidableEq, Repr

/-- termwiz `EraseInLine`. -/
inductive EraseInLineKind where
  | EraseToEndOfLine
  | EraseToStartOfLine
  | EraseLine
deriving DecidableEq, Repr

/-- termwiz `EraseInDisplay`. -/
inductive EraseInDisplayKind where
  | EraseToEndOfDisplay
  | EraseToStartOfDisplay
  | EraseDisplay
  | EraseScrollback
deriving DecidableEq, Repr

/-- termwiz CSI edit operations as matched in `handle_edit`. -/
inductive EditOp where
  | EraseInLine (kind : EraseInLineKind)
  | EraseInDisplay (kind : EraseInDisplayKind)
  | DeleteCharacter (n : Nat)
  | DeleteLine (n : Nat)
  | InsertLine (n : Nat)
  | OtherEdit
deriving DecidableEq, Repr

/-- termwiz `Sgr` operations as matched in `handle_sgr`. -/
inductive SgrOp where
  | Reset
  | SetIntensity (i : Intensity)
  | SetUnderline (u : UnderlineKind)
  | SetBlink (b : BlinkKind)
  | SetItalic (b : Bool)
  | SetInverse (b : Bool)
  | SetInvisible (b : Bool)
  | SetStrikeThrough (b : Bool)
  | SetForeground (c : ColorAttr)
  | SetBackground (c : ColorAttr)
  | SetUnderlineColor (c : ColorAttr)
  | SetOverline (b : Bool)
  | Font
  | VerticalAlign
deriving DecidableEq, Repr

/-- termwiz `DecPrivateModeCode` values matched in `set_dec_mode`, with one
constructor for the wildcard arm. -/
inductive DecPrivateModeCode where
  | ApplicationCursorKeys
  | AutoWrap
  | ShowCursor
  | MouseTracking
  | HighlightMouseTracking
  | ButtonEventMouse
  | AnyEventMouse
  | SGRMouse
  | ClearAndEnableAlternateScreen
  | EnableAlternateScreen
  | BracketedPaste
  | OtherDecMode
deriving DecidableEq, Repr

/-- termwiz `Mode` as matched in `handle_mode`. -/
inductive ModeOp where
  | SetDecPrivateMode (code : DecPrivateModeCode)
  | ResetDecPrivateMode (code : DecPrivateModeCode)
  | OtherMode
deriving DecidableEq, Repr

/-- termwiz CSI variants as matched in `handle_csi`. -/
inductive CSIOp where
  | CursorOp (op : CursorOp)
  | Edit (op : EditOp)
  | Sgr (op : SgrOp)
  | Mode (op : ModeOp)
  | Device
  | Window
  | OtherCSI
deriving DecidableEq, Repr

/-- termwiz `EscCode` values matched in `handle_esc`, with one constructor
for the wildcard arm. -/
inductive EscOp where
  | DecSaveCursorPosition
  | DecRestoreCursorPosition
  | ReverseIndex
  | Index
  | NextLine
  | FullReset
  | OtherEsc
deriving DecidableEq, Repr

/-- termwiz `Action` as matched in `handle_action`.  OSC, device control,
sixel and graphics actions are all ignored by the code and collapsed here
into single constructors. -/
inductive Action where
  | Print (c : Char)
  | PrintString (s : String)
  | Control (code : ControlCode)
  | CSI (op : CSIOp)
  | Esc (op : EscOp)
  | OperatingSystemCommand
  | DeviceControl
  | Sixel
  | GraphicsOther
deriving DecidableEq, Repr

namespace EmbeddedTerminal

/-- `newline()`: move the cursor down, scrolling at the bottom. -/
def newline (t : EmbeddedTerminal) : EmbeddedTerminal :=
  let t := { t with cursor := { t.cursor with row := t.cursor.row + 1 } }
  if t.config.rows ≤ t.cursor.row then
    let t := t.scroll_screen_up 1
    { t with cursor := { t.cursor with row := t.config.rows - 1 } }
  else t

/-- `print_char(c)`: write the character at the cursor with the current
pen, advance the cursor, wrapping into `newline` at the right edge. -/
def print_char (t : EmbeddedTerminal) (c : Char) : EmbeddedTerminal :=
  let s := t.surface.setCursor t.cursor.col t.cursor.row
  let s := s.setAttrs t.current_attrs
  let s := s.putText (String.mk [c])
  let t := { t with surface := s, cursor := { t.cursor with col := t.cursor.col + 1 } }
  if t.config.cols ≤ t.cursor.col then
    newline { t with cursor := { t.cursor with col := 0 } }
  else t

/-- `print_string(s)`. -/
def print_string (t : EmbeddedTerminal) (s : String) : EmbeddedTerminal :=
  s.data.foldl print_char t

/-- `handle_control(ctrl)`. -/
def handle_control (t : EmbeddedTerminal) (ctrl : ControlCode) : EmbeddedTerminal :=
  match ctrl with
  | .Null => t
  | .Bell => t
  | .Backspace => { t with cursor := { t.cursor with col := t.cursor.col - 1 } }
  | .HorizontalTab =>
    let t := { t with cursor := { t.cursor with col := ((t.cursor.col / 8) + 1) * 8 } }
    if t.config.cols ≤ t.cursor.col then
      { t with cursor := { t.cursor with col := t.config.cols - 1 } }
    else t
  | .LineFeed => t.newline
  | .VerticalTab => t.newline
  | .FormFeed => t.newline
  | .CarriageReturn => { t with cursor := { t.cursor with col := 0 } }
  | .OtherControl => t

/-- `handle_cursor(op)`. -/
def handle_cursor (t : EmbeddedTerminal) (op : CursorOp) : EmbeddedTerminal :=
  match op with
  | .Up n => { t with cursor := { t.cursor with row := t.cursor.row - n } }
  | .Down n =>
    { t with cursor := { t.cursor with row := min (t.cursor.row + n) (t.config.rows - 1) } }
  | .Left n => { t with cursor := { t.cursor with col := t.cursor.col - n } }
  | .Right n =>
    { t with cursor := { t.cursor with col := min (t.cursor.col + n) (t.config.cols - 1) } }
  | .Position line col =>
    { t with cursor := ⟨min (col - 1) (t.config.cols - 1), min (line - 1) (t.config.rows - 1)⟩ }
  | .CharacterAndLinePosition line col =>
    { t with cursor := ⟨min (col - 1) (t.config.cols - 1), min (line - 1) (t.config.rows - 1)⟩ }
  | .CharacterPositionAbsolute col =>
    { t with cursor := { t.cursor with col := min (col - 1) (t.config.cols - 1) } }
  | .CharacterAbsolute col =>
    { t with cursor := { t.cursor with col := min (col - 1) (t.config.cols - 1) } }
  | .LinePositionAbsolute row =>
    { t with cursor := { t.cursor with row := min (row - 1) (t.config.rows - 1) } }
  | .SaveCursor => { t with saved_cursor := some t.cursor }
  | .RestoreCursor =>
    match t.saved_cursor with
    | some pos => { t with cursor := pos }
    | none => t
  | .NextLine n =>
    { t with cursor := ⟨0, min (t.cursor.row + n) (t.config.rows - 1)⟩ }
  | .PrecedingLine n =>
    { t with cursor := ⟨0, t.cursor.row - n⟩ }
  | .CharacterPositionForward n =>
    { t with cursor := { t.cursor with col := min (t.cursor.col + n) (t.config.cols - 1) } }
  | .CharacterPositionBackward n =>
    { t with cursor := { t.cursor with col := t.cursor.col - n } }
  | .LinePositionForward n =>
    { t with cursor := { t.cursor with row := min (t.cursor.row + n) (t.config.rows - 1) } }
  | .LinePositionBackward n =>
    { t with cursor := { t.cursor with row := t.cursor.row - n } }
  | .OtherCursor => t

/-- `handle_edit(op)`. -/
def handle_edit (t : EmbeddedTerminal) (op : EditOp) : EmbeddedTerminal :=
  match op with
  | .EraseInLine .EraseToEndOfLine =>
    let s := t.surface.setCursor t.cursor.col t.cursor.row
    { t with surface := s.clearToEndOfLine ColorAttr.Default }
  | .EraseInLine .EraseToStartOfLine =>
    let s := t.surface.setCursor 0 t.cursor.row
    { t with surface := (List.range (t.cursor.col + 1)).foldl (fun s _ => s.putText " ") s }
  | .EraseInLine .EraseLine =>
    let s := t.surface.setCursor 0 t.cursor.row
    { t with surface := s.clearToEndOfLine ColorAttr.Default }
  | .EraseInDisplay .EraseToEndOfDisplay =>
    let s := t.surface.setCursor t.cursor.col t.cursor.row
    let s := s.clearToEndOfLine ColorAttr.Default
    let s := (List.range' (t.cursor.row + 1) (t.config.rows - (t.cursor.row + 1))).foldl
      (fun s y => (s.setCursor 0 y).clearToEndOfLine ColorAttr.Default) s
    { t with surface := s }
  | .EraseInDisplay .EraseToStartOfDisplay =>
    let s := (List.range t.cursor.row).foldl
      (fun s y => (s.setCursor 0 y).clearToEndOfLine ColorAttr.Default) t.surface
    let s := s.setCursor 0 t.cursor.row
    { t with surface := (List.range (t.cursor.col + 1)).foldl (fun s _ => s.putText " ") s }
  | .EraseInDisplay .EraseDisplay =>
    { t with surface := t.surface.clearScreen ColorAttr.Default }
  | .EraseInDisplay .EraseScrollback =>
    { t with scrollback := [] }
  | .DeleteCharacter n =>
    let s := t.surface.setCursor t.cursor.col t.cursor.row
    { t with surface := (List.range n).foldl (fun s _ => s.putText " ") s }
  | .DeleteLine n =>
    let s := (List.range n).foldl
      (fun s _ => s.scrollRegionUp t.cursor.row (t.config.rows - t.cursor.row) 1) t.surface
    { t with surface := s }
  | .InsertLine n =>
    let s := (List.range n).foldl
      (fun s _ => s.scrollRegionDown t.cursor.row (t.config.rows - t.cursor.row) 1) t.surface
    { t with surface := s }
  | .OtherEdit => t

/-- `handle_sgr(sgr)`. -/
def handle_sgr (t : EmbeddedTerminal) (sgr : SgrOp) : EmbeddedTerminal :=
  match sgr with
  | .Reset => { t with current_attrs := CellAttributes.default }
  | .SetIntensity i => { t with current_attrs := { t.current_attrs with intensity := i } }
  | .SetUnderline u => { t with current_attrs := { t.current_attrs with underline := u } }
  | .SetBlink b => { t with current_attrs := { t.current_attrs with blink := b } }
  | .SetItalic b => { t with current_attrs := { t.current_attrs with italic := b } }
  | .SetInverse b => { t with current_attrs := { t.current_attrs with reverse := b } }
  | .SetInvisible b => { t with current_attrs := { t.current_attrs with invisible := b } }
  | .SetStrikeThrough b => { t with current_attrs := { t.current_attrs with strikethrough := b } }
  | .SetForeground c => { t with current_attrs := { t.current_attrs with foreground := c } }
  | .SetBackground c => { t with current_attrs := { t.current_attrs with background := c } }
  | .SetUnderlineColor c => { t with current_attrs := { t.current_attrs with underline_color := c } }
  | .SetOverline b => { t with current_attrs := { t.current_attrs with overline := b } }
  | .Font => t
  | .VerticalAlign => t

/-- `set_dec_mode(code, enable)`. -/
def set_dec_mode (t : EmbeddedTerminal) (code : DecPrivateModeCode) (enable : Bool) :
    EmbeddedTerminal :=
  match code with
  | .ApplicationCursorKeys => { t with application_cursor_keys := enable }
  | .AutoWrap => t
  | .ShowCursor => t
  | .MouseTracking | .HighlightMouseTracking | .ButtonEventMouse | .AnyEventMouse =>
    { t with mouse_reporting := enable }
  | .SGRMouse => t
  | .ClearAndEnableAlternateScreen | .EnableAlternateScreen =>
    if enable then
      if !t.in_alternate_screen then
        { t with
          saved_primary := some t.surface
          surface := Surface.new t.config.cols t.config.rows
          in_alternate_screen := true }
      else t
    else
      if t.in_alternate_screen then
        match t.saved_primary with
        | some primary =>
          { t with surface := primary, saved_primary := none, in_alternate_screen := false }
        | none => { t with saved_primary := none, in_alternate_screen := false }
      else t
  | .BracketedPaste => t
  | .OtherDecMode => t

/-- `handle_mode(mode)`. -/
def handle_mode (t : EmbeddedTerminal) (mode : ModeOp) : EmbeddedTerminal :=
  match mode with
  | .SetDecPrivateMode code => t.set_dec_mode code true
  | .ResetDecPrivateMode code => t.set_dec_mode code false
  | .OtherMode => t

/-- `handle_esc(esc)`. -/
def handle_esc (t : EmbeddedTerminal) (esc : EscOp) : EmbeddedTerminal :=
  match esc with
  | .DecSaveCursorPosition => { t with saved_cursor := some t.cursor }
  | .DecRestoreCursorPosition =>
    match t.saved_cursor with
    | some pos => { t with cursor := pos }
    | none => t
  | .ReverseIndex =>
    if t.cursor.row = 0 then
      { t with surface := t.surface.scrollRegionDown 0 t.config.rows 1 }
    else
      { t with cursor := { t.cursor with row := t.cursor.row - 1 } }
  | .Index => t.newline
  | .NextLine => newline { t with cursor := { t.cursor with col := 0 } }
  | .FullReset => t.clear
  | .OtherEsc => t

/-- `handle_csi(csi)`. -/
def handle_csi (t : EmbeddedTerminal) (csi : CSIOp) : EmbeddedTerminal :=
  match csi with
  | .CursorOp op => t.handle_cursor op
  | .Edit op => t.handle_edit op
  | .Sgr op => t.handle_sgr op
  | .Mode op => t.handle_mode op
  | .Device => t
  | .Window => t
  | .OtherCSI => t

/-- `handle_action(action)`. -/
def handle_action (t : EmbeddedTerminal) (action : Action) : EmbeddedTerminal :=
  match action with
  | .Print c => t.print_char c
  | .PrintString s => t.print_string s
  | .Control ctrl => t.handle_control ctrl
  | .CSI csi => t.handle_csi csi
  | .Esc esc => t.handle_esc esc
  | .OperatingSystemCommand => t
  | .DeviceControl => t
  | .Sixel => t
  | .GraphicsOther => t

/-- Apply a parsed action sequence in order. -/
def applyActions (t : EmbeddedTerminal) (acts : List Action) : EmbeddedTerminal :=
  acts.foldl handle_action t

/-- `write(data)` after parsing: apply every action, then `on_content_added`. -/
def writeActions (t : EmbeddedTerminal) (acts : List Action) : EmbeddedTerminal :=
  (t.applyActions acts).on_content_added

end EmbeddedTerminal

/-- Modifier set for key encoding (termwiz `Modifiers` as produced by
`convert_modifiers` in src/terminal/input.rs). -/
structure Modifiers where
  shift : Bool
  ctrl : Bool
  alt : Bool
deriving DecidableEq, Repr

/-- The empty modifier set (`Modifiers::NONE`). -/
def Modifiers.noMods : Modifiers := ⟨false, false, false⟩

/-- Logical keys (termwiz `KeyCode` constructors reachable from
`convert_keycode` in src/terminal/input.rs). -/
inductive KeyCode where
  | Character (c : Char)
  | Enter
  | Backspace
  | Tab
  | Escape
  | UpArrow
  | DownArrow
  | LeftArrow
  | RightArrow
  | Home
  | End
  | PageUp
  | PageDown
  | Insert
  | Delete
  | Function (n : Nat)
  | CapsLock
  | ScrollLock
  | NumLock
  | PrintScreen
  | Pause
  | Menu
deriving DecidableEq, Repr

/-- termwiz `KeyCodeEncodeModes` as built by `encode_key` (the code always
passes `modify_other_keys: None`, so that field is omitted). -/
structure KeyCodeEncodeModes where
  encoding : KeyboardEncoding
  application_cursor_keys : Bool
  newline_mode : Bool
deriving DecidableEq, Repr

namespace EmbeddedTerminal

/-- The `KeyCodeEncodeModes` value `encode_key` builds from the terminal
mode flags. -/
def encodeModes (t : EmbeddedTerminal) : KeyCodeEncodeModes :=
  ⟨t.keyboard_encoding, t.application_cursor_keys, t.newline_mode⟩

/-- `encode_key(key, modifiers)`: delegate to the termwiz encoder (an
external crate, passed here as the function `enc`; it yields `none` for a
key with no defined encoding) and turn any failure into the empty string
via `unwrap_or_default()`. -/
def encode_key (enc : KeyCode → Modifiers → KeyCodeEncodeModes → Option String)
    (t : EmbeddedTerminal) (key : KeyCode) (modifiers : Modifiers) : String :=
  (enc key modifiers t.encodeModes).getD ""

end EmbeddedTerminal

/-- A byte, modelled as a `Nat` (the embedding never does byte arithmetic). -/
abbrev Byte := Nat

/-- `PtySession::try_read(buf)` acting on the FIFO channel contents: pop the
oldest chunk, copy `min(chunk.len, buf.len)` bytes into the buffer, return
how many were copied; `none` when the channel is empty.  Bytes of the chunk
beyond the buffer length are discarded with the chunk. -/
def try_read (bufLen : Nat) (channel : List (List Byte)) :
    Option (List Byte) × List (List Byte) :=
  match channel with
  | [] => (none, [])
  | data :: rest => (some (data.take bufLen), rest)

/-- Successive `try_read` calls with a fixed caller buffer size, until the
channel is drained, concatenating the bytes obtained. -/
def readAll (bufLen : Nat) : List (List Byte) → List Byte
  | [] => []
  | data :: rest =>
    match try_read bufLen (data :: rest) with
    | (some bytes, _) => bytes ++ readAll bufLen rest
    | (none, _) => readAll bufLen rest

/-- The channel contents produced by the background reader thread in
`PtySession::spawn`: the child's byte stream is delivered as a FIFO list of
non-empty chunks of at most 4096 bytes whose concatenation is the stream. -/
def validChunking (produced : List Byte) (chunks : List (List Byte)) : Prop :=
  chunks.flatten = produced ∧ ∀ c ∈ chunks, c ≠ [] ∧ c.length ≤ 4096

/-- `portable_pty::ExitStatus`: only `success()` is exposed. -/
structure ExitStatus where
  successful : Bool
deriving DecidableEq, Repr

/-- `ExitStatus::success()`. -/
def ExitStatus.success (s : ExitStatus) : Bool := s.successful

/-- `CommandStatus` from src/executor.rs. -/
inductive CommandStatus where
  | Running
  | Exited (code : Int)
  | Signaled (sig : Int)
  | Unknown
deriving DecidableEq, Repr

/-- `CommandStatus::from_exit_status`: portable_pty does not expose the
exact code, so failure maps to code 1. -/
def CommandStatus.from_exit_status (status : ExitStatus) : CommandStatus :=
  if status.success then CommandStatus.Exited 0 else CommandStatus.Exited 1

/-- Modelled from the spec: the shell and portable_pty are external to
src/, so the exit status of spawning `sh -c "exit n"` and waiting is
modelled here; `success()` is true exactly when `n = 0`, as the tests in
src/pty.rs record for `"exit 0"` and `"exit 42"`. -/
def shellExitStatus (n : Nat) : ExitStatus := ⟨decide (n = 0)⟩

/-- The cell at (row `y`, column `x`) of a surface. -/
def cellAt (s : Surface) (y x : Nat) : Cell :=
  (s.grid.getD y []).getD x Cell.blank

/-- Well-formed grid: the row count matches the height and every row has
exactly `width` cells. -/
def gridWF (s : Surface) : Prop :=
  s.grid.length = s.height ∧ ∀ row ∈ s.grid, row.length = s.width

/-- The cursor is inside `[0, cols) x [0, rows)`. -/
abbrev cursorInBounds (t : EmbeddedTerminal) : Prop :=
  t.cursor.col < t.config.cols ∧ t.cursor.row < t.config.rows

/-- An optional saved cursor lies inside `[0, cols) x [0, rows)` when present. -/
def savedOk (cols rows : Nat) (s : Option CursorPosition) : Prop :=
  match s with
  | none => True
  | some p => p.col < cols ∧ p.row < rows

/-- The saved cursor slot, when occupied, is inside the bounds. -/
abbrev savedCursorInBounds (t : EmbeddedTerminal) : Prop :=
  savedOk t.config.cols t.config.rows t.saved_cursor

/-- The two parsed actions that leave alternate-screen mode
(`CSI ? 1049 l` / `CSI ? 47 l`). -/
def disables_alt (a : Action) : Prop :=
  a = Action.CSI (CSIOp.Mode (ModeOp.ResetDecPrivateMode
        DecPrivateModeCode.ClearAndEnableAlternateScreen)) ∨
  a = Action.CSI (CSIOp.Mode (ModeOp.ResetDecPrivateMode
        DecPrivateModeCode.EnableAlternateScreen))

/-- The parsed action that enters alternate-screen mode (`CSI ? 1049 h`). -/
def enableAltAction : Action :=
  Action.CSI (CSIOp.Mode (ModeOp.SetDecPrivateMode
    DecPrivateModeCode.ClearAndEnableAlternateScreen))

/-- The parsed action that leaves alternate-screen mode (`CSI ? 1049 l`). -/
def disableAltAction : Action :=
  Action.CSI (CSIOp.Mode (ModeOp.ResetDecPrivateMode
    DecPrivateModeCode.ClearAndEnableAlternateScreen))

instance (a : Action) : Decidable (disables_alt a) :=
  inferInstanceAs (Decidable (
    a = Action.CSI (CSIOp.Mode (ModeOp.ResetDecPrivateMode
          DecPrivateModeCode.ClearAndEnableAlternateScreen)) ∨
    a = Action.CSI (CSIOp.Mode (ModeOp.ResetDecPrivateMode
          DecPrivateModeCode.EnableAlternateScreen))))

/-! ### C4: the PTY byte stream across `try_read` -/

/-- C4 counterexample: `try_read` copies only `min(chunk.len, buf.len)`
bytes and drops the rest of the chunk, so with a 1-byte caller buffer the
two-byte stream `[7, 8]`, delivered as one chunk, is read back as `[7]`:
a byte is lost, refuting the claim for arbitrary buffer sizes. -/
theorem try_read_truncates_cex :
    validChunking [7, 8] [[7, 8]] ∧ readAll 1 [[7, 8]] ≠ [7, 8] := by
  constructor
  · exact ⟨rfl, by decide⟩
  · decide

/-- C4 (amended): when every chunk fits into the caller buffer — as holds
for the in-tree caller, which passes a 4096-byte buffer while the reader
thread produces chunks of at most 4096 bytes — successive `try_read` calls
return exactly the bytes the child produced, in order. -/
theorem try_read_preserves_stream (produced : List Byte) (chunks : List (List Byte))
    (bufLen : Nat) (hv : validChunking produced chunks)
    (hbuf : ∀ c ∈ chunks, c.length ≤ bufLen) :
    readAll bufLen chunks = produced := by
  obtain ⟨hjoin, hne⟩ := hv
  subst hjoin
  clear hne
  induction chunks with
  | nil => rfl
  | cons c rest ih =>
    simp only [readAll, try_read, List.flatten_cons]
    rw [List.take_of_length_le (hbuf c (by simp))]
    rw [ih (fun d hd => hbuf d (by simp [hd]))]

/-- Witness for C4 (amended) at a concrete two-chunk stream with the real
4096-byte buffer. -/
theorem try_read_preserves_stream_witness :
    validChunking [1, 2, 3] [[1, 2], [3]] ∧ readAll 4096 [[1, 2], [3]] = [1, 2, 3] :=
  ⟨⟨by decide, by decide⟩,
   try_read_preserves_stream [1, 2, 3] [[1, 2], [3]] 4096 ⟨by decide, by decide⟩ (by decide)⟩

/-! ### C8: exit status classification -/

/-- C8: the status of a terminated child is always classified as
exited-with-code, terminated-by-signal, or unknown (`from_exit_status` in
fact always yields an exited-with-code classification, since portable_pty
exposes only `success()`); the modelled `sh -c "exit 42"` status classifies
as exited with the non-zero code 1, and `exit 0` as exited with code 0. -/
theorem exit_status_classification :
    (∀ status : ExitStatus,
      (∃ c, CommandStatus.from_exit_status status = CommandStatus.Exited c) ∨
      (∃ g, CommandStatus.from_exit_status status = CommandStatus.Signaled g) ∨
      CommandStatus.from_exit_status status = CommandStatus.Unknown) ∧
    (CommandStatus.from_exit_status (shellExitStatus 42) = CommandStatus.Exited 1 ∧
      (1 : Int) ≠ 0) ∧
    CommandStatus.from_exit_status (shellExitStatus 0) = CommandStatus.Exited 0 := by
  refine ⟨fun status => ?_, ⟨by decide, by decide⟩, by decide⟩
  by_cases h : status.success <;>
    simp [CommandStatus.from_exit_status, h]

/-! ### C9: unmapped keys encode to the empty string -/

/-- C9: for every terminal state (hence every mode-flag combination), every
modifier set, and every key for which the underlying termwiz encoder has no
defined encoding (it returns no byte string), `encode_key` returns the
empty string instead of an error. -/
theorem unmapped_key_encodes_empty
    (enc : KeyCode → Modifiers → KeyCodeEncodeModes → Option String)
    (t : EmbeddedTerminal) (key : KeyCode) (modifiers : Modifiers)
    (h : enc key modifiers t.encodeModes = none) :
    t.encode_key enc key modifiers = "" := by
  simp [EmbeddedTerminal.encode_key, h]

/-- Witness for C9 at a concrete encoder, state, key and modifier set. -/
theorem unmapped_key_encodes_empty_witness :
    EmbeddedTerminal.encode_key (fun _ _ _ => none)
      (EmbeddedTerminal.new TerminalConfig.defaultCfg) KeyCode.Menu Modifiers.noMods = "" :=
  unmapped_key_encodes_empty (fun _ _ _ => none)
    (EmbeddedTerminal.new TerminalConfig.defaultCfg) KeyCode.Menu Modifiers.noMods rfl

/-! ### C10: frame effect of `clear` / full reset -/

/-- C10: `clear()` (also invoked by `ESC c`) resets the grid, cursor,
current pen, scroll offset and scrollback, and leaves every other field —
application-cursor-keys, mouse-reporting, newline-mode, saved cursor,
in-alternate-screen flag, stashed primary grid, follow mode, config and
keyboard encoding — unchanged. -/
theorem clear_frame_effect (t : EmbeddedTerminal) :
    (t.clear.surface = Surface.new t.config.cols t.config.rows ∧
      t.clear.cursor = ⟨0, 0⟩ ∧
      t.clear.current_attrs = CellAttributes.default ∧
      t.clear.scroll_offset = 0 ∧
      t.clear.scrollback = []) ∧
    (t.clear.application_cursor_keys = t.application_cursor_keys ∧
      t.clear.mouse_reporting = t.mouse_reporting ∧
      t.clear.newline_mode = t.newline_mode ∧
      t.clear.saved_cursor = t.saved_cursor ∧
      t.clear.in_alternate_screen = t.in_alternate_screen ∧
      t.clear.saved_primary = t.saved_primary ∧
      t.clear.follow_mode = t.follow_mode ∧
      t.clear.config = t.config ∧
      t.clear.keyboard_encoding = t.keyboard_encoding) ∧
    t.handle_esc EscOp.FullReset = t.clear :=
  ⟨⟨rfl, rfl, rfl, rfl, rfl⟩, ⟨rfl, rfl, rfl, rfl, rfl, rfl, rfl, rfl, rfl⟩, rfl⟩

/-! ### C6: viewport scrolling and follow mode -/

/-- C6: starting from a state whose view offset is within
`[0, scrollback length]` and where follow mode implies offset 0,
`scroll_up(n)`/`scroll_down(n)` keep the offset within
`[0, scrollback length]`; after either call follow mode is off whenever the
offset is positive; `scroll_down` re-enables follow mode exactly when the
offset reaches 0; and `scroll_to_bottom()` sets the offset to 0 and
re-enables follow mode. -/
theorem scroll_navigation_ok (t : EmbeddedTerminal) (n : Nat)
    (hoff : t.scroll_offset ≤ t.scrollback.length)
    (hfollow : t.follow_mode = true → t.scroll_offset = 0) :
    ((t.scroll_up n).scroll_offset ≤ (t.scroll_up n).scrollback.length ∧
      (0 < (t.scroll_up n).scroll_offset → (t.scroll_up n).follow_mode = false)) ∧
    ((t.scroll_down n).scroll_offset ≤ (t.scroll_down n).scrollback.length ∧
      (0 < (t.scroll_down n).scroll_offset → (t.scroll_down n).follow_mode = false) ∧
      ((t.scroll_down n).scroll_offset = 0 → (t.scroll_down n).follow_mode = true)) ∧
    (t.scroll_to_bottom.scroll_offset = 0 ∧ t.scroll_to_bottom.follow_mode = true) := by
  refine ⟨⟨?_, fun _ => rfl⟩, ?_, rfl, rfl⟩
  · simp only [EmbeddedTerminal.scroll_up]
    omega
  · by_cases h : t.scroll_offset - n = 0
    · refine ⟨?_, ?_, ?_⟩ <;> simp [EmbeddedTerminal.scroll_down, h]
    · refine ⟨?_, ?_, ?_⟩
      · simp [EmbeddedTerminal.scroll_down, h]
        omega
      · intro hpos
        simp [EmbeddedTerminal.scroll_down, h] at hpos ⊢
        cases hf : t.follow_mode
        · rfl
        · exact absurd (hfollow hf) (by omega)
      · intro h0
        simp [EmbeddedTerminal.scroll_down, h] at h0

/-! ### List access helpers -/

theorem getD_set_self {α : Type} (l : List α) (n : Nat) (a d : α) (h : n < l.length) :
    (l.set n a).getD n d = a := by
  simp [List.getD_eq_getElem?_getD, List.getElem?_set_self, h]

theorem getD_set_ne {α : Type} (l : List α) (m n : Nat) (a d : α) (h : m ≠ n) :
    (l.set m a).getD n d = l.getD n d := by
  simp [List.getD_eq_getElem?_getD, List.getElem?_set_ne h]

theorem getD_append_lt {α : Type} (l l2 : List α) (n : Nat) (d : α) (h : n < l.length) :
    (l ++ l2).getD n d = l.getD n d := by
  simp [List.getD_eq_getElem?_getD, List.getElem?_append_left h]

theorem getD_append_ge {α : Type} (l l2 : List α) (n : Nat) (d : α) (h : l.length ≤ n) :
    (l ++ l2).getD n d = l2.getD (n - l.length) d := by
  simp [List.getD_eq_getElem?_getD, List.getElem?_append_right h]

theorem getD_replicate_lt {α : Type} (k n : Nat) (a d : α) (h : n < k) :
    (List.replicate k a).getD n d = a := by
  simp [List.getD_eq_getElem?_getD, List.getElem?_replicate, h]

/-! ### Cell-level behaviour of the surface change operations -/

theorem getD_mem {α : Type} (l : List α) (n : Nat) (d : α) (h : n < l.length) :
    l.getD n d ∈ l := by
  rw [List.getD_eq_getElem?_getD, List.getElem?_eq_getElem h]
  exact List.getElem_mem h

theorem getD_map_lt {α β : Type} (f : α → β) (l : List α) (n : Nat) (d : β) (d2 : α)
    (h : n < l.length) :
    (l.map f).getD n d = f (l.getD n d2) := by
  rw [List.getD_eq_getElem?_getD, List.getElem?_map, List.getElem?_eq_getElem h]
  rw [List.getD_eq_getElem?_getD, List.getElem?_eq_getElem h]
  rfl

theorem blankWith_default : Cell.blankWith ColorAttr.Default = Cell.blank := rfl

theorem clearToEndOfLine_spec (s : Surface) (c : ColorAttr)
    (hwf : gridWF s) (hy : s.ypos < s.height) (hx : s.xpos ≤ s.width) :
    (s.clearToEndOfLine c).width = s.width ∧
    (s.clearToEndOfLine c).height = s.height ∧
    (s.clearToEndOfLine c).attrs = s.attrs ∧
    gridWF (s.clearToEndOfLine c) ∧
    (∀ j, s.xpos ≤ j → j < s.width →
      cellAt (s.clearToEndOfLine c) s.ypos j = Cell.blankWith c) ∧
    (∀ y, y ≠ s.ypos → ∀ j, cellAt (s.clearToEndOfLine c) y j = cellAt s y j) := by
  obtain ⟨hlen, hrows⟩ := hwf
  have hylen : s.ypos < s.grid.length := by omega
  have hrowlen : (s.grid.getD s.ypos []).length = s.width :=
    hrows _ (getD_mem _ _ _ hylen)
  refine ⟨rfl, rfl, rfl, ⟨?_, ?_⟩, ?_, ?_⟩
  · simp only [Surface.clearToEndOfLine, updateRow, List.length_set]
    exact hlen
  · intro row hrow
    simp only [Surface.clearToEndOfLine, updateRow] at hrow
    rcases List.mem_or_eq_of_mem_set hrow with h | h
    · exact hrows row h
    · subst h
      rw [List.length_append, List.length_take, List.length_replicate]
      show min s.xpos (s.grid.getD s.ypos []).length +
        ((s.grid.getD s.ypos []).length - s.xpos) = s.width
      omega
  · intro j hj1 hj2
    have htake : ((s.grid.getD s.ypos []).take s.xpos).length = s.xpos := by
      rw [List.length_take]
      omega
    unfold cellAt Surface.clearToEndOfLine updateRow
    rw [getD_set_self _ _ _ _ hylen, getD_append_ge _ _ _ _ (by rw [htake]; omega), htake]
    exact getD_replicate_lt _ _ _ _ (by omega)
  · intro y hy2 j
    unfold cellAt Surface.clearToEndOfLine updateRow
    rw [getD_set_ne _ _ _ _ _ (fun h => hy2 h.symm)]

theorem clearScreen_spec (s : Surface) (c : ColorAttr) (hwf : gridWF s) :
    (s.clearScreen c).width = s.width ∧
    (s.clearScreen c).height = s.height ∧
    gridWF (s.clearScreen c) ∧
    (∀ y, y < s.height → ∀ j, j < s.width →
      cellAt (s.clearScreen c) y j = Cell.blankWith c) := by
  obtain ⟨hlen, hrows⟩ := hwf
  refine ⟨rfl, rfl, ⟨?_, ?_⟩, ?_⟩
  · simp only [Surface.clearScreen, List.length_map]
    exact hlen
  · intro row hrow
    simp only [Surface.clearScreen, List.mem_map] at hrow
    obtain ⟨r, hr, hrr⟩ := hrow
    subst hrr
    rw [List.length_replicate]
    exact hrows r hr
  · intro y hy j hj
    have hylen : y < s.grid.length := by omega
    have hrowlen : (s.grid.getD y []).length = s.width :=
      hrows _ (getD_mem _ _ _ hylen)
    unfold cellAt Surface.clearScreen
    rw [getD_map_lt _ _ _ _ [] hylen]
    exact getD_replicate_lt _ _ _ _ (by omega)

theorem putText_space (s : Surface) : s.putText " " = s.putChar ' ' := rfl

theorem putChar_spec (s : Surface) (c : Char)
    (hwf : gridWF s) (hy : s.ypos < s.height) (hx : s.xpos < s.width) :
    (s.putChar c).width = s.width ∧
    (s.putChar c).height = s.height ∧
    (s.putChar c).attrs = s.attrs ∧
    (s.putChar c).ypos = s.ypos ∧
    (s.putChar c).xpos = s.xpos + 1 ∧
    gridWF (s.putChar c) ∧
    cellAt (s.putChar c) s.ypos s.xpos = ⟨c, s.attrs⟩ ∧
    (∀ j, j ≠ s.xpos → cellAt (s.putChar c) s.ypos j = cellAt s s.ypos j) ∧
    (∀ y, y ≠ s.ypos → ∀ j, cellAt (s.putChar c) y j = cellAt s y j) := by
  obtain ⟨hlen, hrows⟩ := hwf
  have hylen : s.ypos < s.grid.length := by omega
  have hrowlen : (s.grid.getD s.ypos []).length = s.width :=
    hrows _ (getD_mem _ _ _ hylen)
  have hput : s.putChar c = { s with
      grid := updateRow s.grid s.ypos (fun row => row.set s.xpos ⟨c, s.attrs⟩),
      xpos := s.xpos + 1 } := by
    unfold Surface.putChar
    rw [if_neg (by omega)]
  rw [hput]
  refine ⟨rfl, rfl, rfl, rfl, rfl, ⟨?_, ?_⟩, ?_, ?_, ?_⟩
  · simp only [updateRow, List.length_set]
    exact hlen
  · intro row hrow
    simp only [updateRow] at hrow
    rcases List.mem_or_eq_of_mem_set hrow with h | h
    · exact hrows row h
    · subst h
      rw [List.length_set]
      exact hrowlen
  · unfold cellAt updateRow
    rw [getD_set_self _ _ _ _ hylen]
    exact getD_set_self _ _ _ _ (by omega)
  · intro j hj
    unfold cellAt updateRow
    rw [getD_set_self _ _ _ _ hylen]
    exact getD_set_ne _ _ _ _ _ (fun h => hj h.symm)
  · intro y hyne j
    unfold cellAt updateRow
    rw [getD_set_ne _ _ _ _ _ (fun h => hyne h.symm)]

theorem spaces_fold_spec (k : Nat) (s : Surface)
    (hwf : gridWF s) (hy : s.ypos < s.height) (hk : s.xpos + k ≤ s.width) :
    ((List.range k).foldl (fun s _ => s.putText " ") s).width = s.width ∧
    ((List.range k).foldl (fun s _ => s.putText " ") s).height = s.height ∧
    ((List.range k).foldl (fun s _ => s.putText " ") s).attrs = s.attrs ∧
    ((List.range k).foldl (fun s _ => s.putText " ") s).ypos = s.ypos ∧
    ((List.range k).foldl (fun s _ => s.putText " ") s).xpos = s.xpos + k ∧
    gridWF ((List.range k).foldl (fun s _ => s.putText " ") s) ∧
    (∀ j, s.xpos ≤ j → j < s.xpos + k →
      cellAt ((List.range k).foldl (fun s _ => s.putText " ") s) s.ypos j = ⟨' ', s.attrs⟩) ∧
    (∀ y, y ≠ s.ypos → ∀ j,
      cellAt ((List.range k).foldl (fun s _ => s.putText " ") s) y j = cellAt s y j) := by
  induction k with
  | zero =>
    exact ⟨rfl, rfl, rfl, rfl, rfl, hwf, fun j h1 h2 => by omega, fun y _ j => rfl⟩
  | succ k ih =>
    obtain ⟨w1, w2, w3, w4, w5, w6, w7, w8⟩ := ih (by omega)
    rw [List.range_succ, List.foldl_append, List.foldl_cons, List.foldl_nil, putText_space]
    obtain ⟨p1, p2, p3, p4, p5, p6, p7, p8, p9⟩ :=
      putChar_spec ((List.range k).foldl (fun s _ => s.putText " ") s) ' '
        w6 (by rw [w4, w2]; exact hy) (by rw [w5, w1]; omega)
    refine ⟨p1.trans w1, p2.trans w2, p3.trans w3, p4.trans w4, ?_, p6, ?_, ?_⟩
    · rw [p5, w5]
      omega
    · intro j hj1 hj2
      by_cases hje : j = s.xpos + k
      · subst hje
        rw [← w4, ← w5]
        rw [p7, w3]
      · have := p8 j (by rw [w5]; omega)
        rw [w4] at this
        rw [this]
        exact w7 j hj1 (by omega)
    · intro y hyne j
      have := p9 y (by rw [w4]; exact hyne)
      rw [this]
      exact w8 y hyne j

theorem clear_rows_fold_spec (ys : List Nat) (s : Surface) (c : ColorAttr)
    (hwf : gridWF s) (hys : ∀ y ∈ ys, y < s.height) :
    (ys.foldl (fun acc y => (acc.setCursor 0 y).clearToEndOfLine c) s).width = s.width ∧
    (ys.foldl (fun acc y => (acc.setCursor 0 y).clearToEndOfLine c) s).height = s.height ∧
    (ys.foldl (fun acc y => (acc.setCursor 0 y).clearToEndOfLine c) s).attrs = s.attrs ∧
    gridWF (ys.foldl (fun acc y => (acc.setCursor 0 y).clearToEndOfLine c) s) ∧
    (∀ y ∈ ys, ∀ j, j < s.width →
      cellAt (ys.foldl (fun acc y => (acc.setCursor 0 y).clearToEndOfLine c) s) y j
        = Cell.blankWith c) ∧
    (∀ y, y ∉ ys → ∀ j,
      cellAt (ys.foldl (fun acc y => (acc.setCursor 0 y).clearToEndOfLine c) s) y j
        = cellAt s y j) := by
  induction ys generalizing s with
  | nil =>
    exact ⟨rfl, rfl, rfl, hwf, by simp, fun y _ j => rfl⟩
  | cons y0 ys ih =>
    have hy0 : y0 < s.height := hys y0 (by simp)
    have hwf2 : gridWF (s.setCursor 0 y0) := hwf
    have hys2 : (s.setCursor 0 y0).ypos = y0 := by
      simp only [Surface.setCursor]
      omega
    have hxs2 : (s.setCursor 0 y0).xpos = 0 := by
      simp only [Surface.setCursor]
      omega
    obtain ⟨c1, c2, c3, c4, c5, c6⟩ := clearToEndOfLine_spec (s.setCursor 0 y0) c
      hwf2 (by rw [hys2]; exact hy0) (by rw [hxs2]; omega)
    rw [List.foldl_cons]
    obtain ⟨i1, i2, i3, i4, i5, i6⟩ := ih ((s.setCursor 0 y0).clearToEndOfLine c) c4
      (fun y hymem => by rw [c2]; exact hys y (by simp [hymem]))
    refine ⟨i1.trans c1, i2.trans c2, i3.trans c3, i4, ?_, ?_⟩
    · intro y hymem j hj
      rcases List.mem_cons.mp hymem with h | h
      · rw [h]
        by_cases hmem2 : y0 ∈ ys
        · exact i5 y0 hmem2 j (by rw [c1]; exact hj)
        · rw [i6 y0 hmem2 j]
          have hgoal := c5 j (by rw [hxs2]; omega) hj
          rwa [hys2] at hgoal
      · exact i5 y h j (by rw [c1]; exact hj)
    · intro y hymem j
      have hnys : y ∉ ys := fun h => hymem (by simp [h])
      have hny0 : y ≠ y0 := fun h => hymem (by simp [h])
      rw [i6 y hnys j]
      rw [c6 y (by rw [hys2]; exact hny0) j]
      rfl

/-! ### Frame lemmas for the compound interpreter operations -/

theorem push_to_scrollback_le (t : EmbeddedTerminal) (line : List Cell) :
    (t.push_to_scrollback line).scrollback.length ≤ t.config.scrollback := by
  simp only [EmbeddedTerminal.push_to_scrollback, List.length_drop, List.length_append]
  omega

theorem push_to_scrollback_frame (t : EmbeddedTerminal) (line : List Cell) :
    (t.push_to_scrollback line).config = t.config ∧
    (t.push_to_scrollback line).cursor = t.cursor ∧
    (t.push_to_scrollback line).saved_cursor = t.saved_cursor ∧
    (t.push_to_scrollback line).in_alternate_screen = t.in_alternate_screen ∧
    (t.push_to_scrollback line).saved_primary = t.saved_primary ∧
    (t.push_to_scrollback line).current_attrs = t.current_attrs ∧
    (t.push_to_scrollback line).surface = t.surface :=
  ⟨rfl, rfl, rfl, rfl, rfl, rfl, rfl⟩

theorem ssu_once_spec (t : EmbeddedTerminal) :
    (t.scroll_screen_up_once).config = t.config ∧
    (t.scroll_screen_up_once).cursor = t.cursor ∧
    (t.scroll_screen_up_once).saved_cursor = t.saved_cursor ∧
    (t.scroll_screen_up_once).in_alternate_screen = t.in_alternate_screen ∧
    (t.scroll_screen_up_once).saved_primary = t.saved_primary ∧
    (t.scroll_screen_up_once).current_attrs = t.current_attrs ∧
    (t.scrollback.length ≤ t.config.scrollback →
      (t.scroll_screen_up_once).scrollback.length ≤ t.config.scrollback) := by
  cases hg : t.surface.grid with
  | nil =>
    unfold EmbeddedTerminal.scroll_screen_up_once
    rw [hg]
    exact ⟨rfl, rfl, rfl, rfl, rfl, rfl, fun h => h⟩
  | cons top rest =>
    unfold EmbeddedTerminal.scroll_screen_up_once
    rw [hg]
    exact ⟨rfl, rfl, rfl, rfl, rfl, rfl, fun _ => push_to_scrollback_le t _⟩

theorem ssu_spec (t : EmbeddedTerminal) (n : Nat) :
    (t.scroll_screen_up n).config = t.config ∧
    (t.scroll_screen_up n).cursor = t.cursor ∧
    (t.scroll_screen_up n).saved_cursor = t.saved_cursor ∧
    (t.scroll_screen_up n).in_alternate_screen = t.in_alternate_screen ∧
    (t.scroll_screen_up n).saved_primary = t.saved_primary ∧
    (t.scroll_screen_up n).current_attrs = t.current_attrs ∧
    (t.scrollback.length ≤ t.config.scrollback →
      (t.scroll_screen_up n).scrollback.length ≤ t.config.scrollback) := by
  induction n generalizing t with
  | zero => exact ⟨rfl, rfl, rfl, rfl, rfl, rfl, fun h => h⟩
  | succ n ih =>
    obtain ⟨c1, c2, c3, c4, c5, c6, c7⟩ := ssu_once_spec t
    obtain ⟨i1, i2, i3, i4, i5, i6, i7⟩ := ih t.scroll_screen_up_once
    rw [EmbeddedTerminal.scroll_screen_up]
    refine ⟨i1.trans c1, i2.trans c2, i3.trans c3, i4.trans c4, i5.trans c5, i6.trans c6, ?_⟩
    intro h
    have h2 := c7 h
    rw [← c1] at h2
    have := i7 h2
    rwa [c1] at this

theorem newline_spec (t : EmbeddedTerminal) :
    t.newline.config = t.config ∧
    t.newline.saved_cursor = t.saved_cursor ∧
    t.newline.in_alternate_screen = t.in_alternate_screen ∧
    t.newline.saved_primary = t.saved_primary ∧
    t.newline.current_attrs = t.current_attrs ∧
    t.newline.cursor.col = t.cursor.col ∧
    (1 ≤ t.config.rows → t.newline.cursor.row < t.config.rows) ∧
    (t.scrollback.length ≤ t.config.scrollback →
      t.newline.scrollback.length ≤ t.config.scrollback) := by
  unfold EmbeddedTerminal.newline
  by_cases h : t.config.rows ≤ t.cursor.row + 1
  · rw [if_pos h]
    obtain ⟨s1, s2, s3, s4, s5, s6, s7⟩ :=
      ssu_spec { t with cursor := { t.cursor with row := t.cursor.row + 1 } } 1
    refine ⟨s1, s3, s4, s5, s6, ?_, ?_, s7⟩
    · simp [s2]
    · intro h1
      simp [s1]
      omega
  · rw [if_neg h]
    refine ⟨rfl, rfl, rfl, rfl, rfl, rfl, ?_, fun hh => hh⟩
    intro _
    show t.cursor.row + 1 < t.config.rows
    omega

theorem print_char_spec (t : EmbeddedTerminal) (c : Char) :
    (t.print_char c).config = t.config ∧
    (t.print_char c).saved_cursor = t.saved_cursor ∧
    (t.print_char c).in_alternate_screen = t.in_alternate_screen ∧
    (t.print_char c).saved_primary = t.saved_primary ∧
    (t.print_char c).current_attrs = t.current_attrs ∧
    (1 ≤ t.config.cols → 1 ≤ t.config.rows → t.cursor.row < t.config.rows →
      (t.print_char c).cursor.col < t.config.cols ∧
      (t.print_char c).cursor.row < t.config.rows) ∧
    (t.scrollback.length ≤ t.config.scrollback →
      (t.print_char c).scrollback.length ≤ t.config.scrollback) := by
  unfold EmbeddedTerminal.print_char
  by_cases h : t.config.cols ≤ t.cursor.col + 1
  · rw [if_pos h]
    obtain ⟨n1, n2, n3, n4, n5, n6, n7, n8⟩ := newline_spec
      { t with
        surface := ((t.surface.setCursor t.cursor.col t.cursor.row).setAttrs
          t.current_attrs).putText (String.mk [c])
        cursor := ⟨0, t.cursor.row⟩ }
    refine ⟨n1, n2, n3, n4, n5, ?_, n8⟩
    intro hc hr _
    exact ⟨lt_of_eq_of_lt n6 hc, n7 hr⟩
  · rw [if_neg h]
    refine ⟨rfl, rfl, rfl, rfl, rfl, ?_, fun hh => hh⟩
    intro _ _ hrow
    exact ⟨Nat.lt_of_not_le h, hrow⟩

theorem print_string_fold_spec (cs : List Char) (t : EmbeddedTerminal) :
    (cs.foldl EmbeddedTerminal.print_char t).config = t.config ∧
    (cs.foldl EmbeddedTerminal.print_char t).saved_cursor = t.saved_cursor ∧
    (cs.foldl EmbeddedTerminal.print_char t).in_alternate_screen = t.in_alternate_screen ∧
    (cs.foldl EmbeddedTerminal.print_char t).saved_primary = t.saved_primary ∧
    (cs.foldl EmbeddedTerminal.print_char t).current_attrs = t.current_attrs ∧
    (1 ≤ t.config.cols → 1 ≤ t.config.rows →
      t.cursor.col < t.config.cols → t.cursor.row < t.config.rows →
      (cs.foldl EmbeddedTerminal.print_char t).cursor.col < t.config.cols ∧
      (cs.foldl EmbeddedTerminal.print_char t).cursor.row < t.config.rows) ∧
    (t.scrollback.length ≤ t.config.scrollback →
      (cs.foldl EmbeddedTerminal.print_char t).scrollback.length ≤ t.config.scrollback) := by
  induction cs generalizing t with
  | nil => exact ⟨rfl, rfl, rfl, rfl, rfl, fun _ _ hc hr => ⟨hc, hr⟩, fun h => h⟩
  | cons c cs ih =>
    obtain ⟨p1, p2, p3, p4, p5, p6, p7⟩ := print_char_spec t c
    obtain ⟨i1, i2, i3, i4, i5, i6, i7⟩ := ih (t.print_char c)
    rw [p1] at i6 i7
    simp only [List.foldl_cons]
    refine ⟨i1.trans p1, i2.trans p2, i3.trans p3, i4.trans p4, i5.trans p5, ?_, ?_⟩
    · intro hc hr hcol hrow
      obtain ⟨b1, b2⟩ := p6 hc hr hrow
      exact i6 hc hr b1 b2
    · intro h
      exact i7 (p7 h)

theorem handle_action_spec (t : EmbeddedTerminal) (a : Action) :
    (t.handle_action a).config = t.config ∧
    (¬ disables_alt a → t.in_alternate_screen = true →
      (t.handle_action a).in_alternate_screen = true ∧
      (t.handle_action a).saved_primary = t.saved_primary) ∧
    (t.scrollback.length ≤ t.config.scrollback →
      (t.handle_action a).scrollback.length ≤ t.config.scrollback) := by
  cases a with
  | Print c =>
    obtain ⟨p1, p2, p3, p4, p5, p6, p7⟩ := print_char_spec t c
    exact ⟨p1, fun _ h => ⟨p3.trans h, p4⟩, p7⟩
  | PrintString s =>
    obtain ⟨i1, i2, i3, i4, i5, i6, i7⟩ := print_string_fold_spec s.data t
    exact ⟨i1, fun _ h => ⟨i3.trans h, i4⟩, i7⟩
  | Control ctrl =>
    cases ctrl <;>
      first
        | (obtain ⟨n1, n2, n3, n4, n5, n6, n7, n8⟩ := newline_spec t
           exact ⟨n1, fun _ h => ⟨n3.trans h, n4⟩, n8⟩)
        | exact ⟨rfl, fun _ h => ⟨h, rfl⟩, fun h => h⟩
        | (refine ⟨?_, fun _ h => ⟨?_, ?_⟩, fun h => ?_⟩ <;>
            (simp only [EmbeddedTerminal.handle_action, EmbeddedTerminal.handle_control]
             split <;> first | rfl | exact h))
  | CSI op =>
    cases op with
    | CursorOp cop =>
      cases cop <;>
        first
          | exact ⟨rfl, fun _ h => ⟨h, rfl⟩, fun h => h⟩
          | (rcases hs : t.saved_cursor with _ | p <;>
              (refine ⟨?_, fun _ h => ⟨?_, ?_⟩, fun h => ?_⟩ <;>
                simp only [EmbeddedTerminal.handle_action, EmbeddedTerminal.handle_csi,
                  EmbeddedTerminal.handle_cursor, hs] <;>
                first | rfl | exact h))
    | Edit eop =>
      cases eop <;>
        first
          | exact ⟨rfl, fun _ h => ⟨h, rfl⟩, fun h => h⟩
          | exact ⟨rfl, fun _ h => ⟨h, rfl⟩, fun _ => Nat.zero_le _⟩
          | (rename_i k
             cases k <;>
               first
                 | exact ⟨rfl, fun _ h => ⟨h, rfl⟩, fun h => h⟩
                 | exact ⟨rfl, fun _ h => ⟨h, rfl⟩, fun _ => Nat.zero_le _⟩)
    | Sgr sop =>
      cases sop <;> exact ⟨rfl, fun _ h => ⟨h, rfl⟩, fun h => h⟩
    | Mode mop =>
      cases mop with
      | SetDecPrivateMode code =>
        cases code <;> cases halt : t.in_alternate_screen <;>
          simp_all [EmbeddedTerminal.handle_action, EmbeddedTerminal.handle_csi,
            EmbeddedTerminal.handle_mode, EmbeddedTerminal.set_dec_mode, disables_alt]
      | ResetDecPrivateMode code =>
        cases code <;> cases halt : t.in_alternate_screen <;>
          rcases hs : t.saved_primary with _ | prim <;>
            simp_all [EmbeddedTerminal.handle_action, EmbeddedTerminal.handle_csi,
              EmbeddedTerminal.handle_mode, EmbeddedTerminal.set_dec_mode, disables_alt]
      | OtherMode =>
        exact ⟨rfl, fun _ h => ⟨h, rfl⟩, fun h => h⟩
    | Device => exact ⟨rfl, fun _ h => ⟨h, rfl⟩, fun h => h⟩
    | Window => exact ⟨rfl, fun _ h => ⟨h, rfl⟩, fun h => h⟩
    | OtherCSI => exact ⟨rfl, fun _ h => ⟨h, rfl⟩, fun h => h⟩
  | Esc esc =>
    cases esc <;>
      first
        | (obtain ⟨n1, n2, n3, n4, n5, n6, n7, n8⟩ := newline_spec t
           exact ⟨n1, fun _ h => ⟨n3.trans h, n4⟩, n8⟩)
        | (obtain ⟨n1, n2, n3, n4, n5, n6, n7, n8⟩ :=
             newline_spec { t with cursor := { t.cursor with col := 0 } }
           exact ⟨n1, fun _ h => ⟨n3.trans h, n4⟩, n8⟩)
        | exact ⟨rfl, fun _ h => ⟨h, rfl⟩, fun h => h⟩
        | exact ⟨rfl, fun _ h => ⟨h, rfl⟩, fun _ => Nat.zero_le _⟩
        | (rcases hs : t.saved_cursor with _ | p <;>
            (refine ⟨?_, fun _ h => ⟨?_, ?_⟩, fun h => ?_⟩ <;>
              simp only [EmbeddedTerminal.handle_action, EmbeddedTerminal.handle_esc, hs] <;>
              first | rfl | exact h))
        | (refine ⟨?_, fun _ h => ⟨?_, ?_⟩, fun h => ?_⟩ <;>
            (simp only [EmbeddedTerminal.handle_action, EmbeddedTerminal.handle_esc]
             split <;> first | rfl | exact h))
  | OperatingSystemCommand => exact ⟨rfl, fun _ h => ⟨h, rfl⟩, fun h => h⟩
  | DeviceControl => exact ⟨rfl, fun _ h => ⟨h, rfl⟩, fun h => h⟩
  | Sixel => exact ⟨rfl, fun _ h => ⟨h, rfl⟩, fun h => h⟩
  | GraphicsOther => exact ⟨rfl, fun _ h => ⟨h, rfl⟩, fun h => h⟩

theorem applyActions_spec (acts : List Action) (t : EmbeddedTerminal) :
    (t.applyActions acts).config = t.config ∧
    ((∀ a ∈ acts, ¬ disables_alt a) → t.in_alternate_screen = true →
      (t.applyActions acts).in_alternate_screen = true ∧
      (t.applyActions acts).saved_primary = t.saved_primary) ∧
    (t.scrollback.length ≤ t.config.scrollback →
      (t.applyActions acts).scrollback.length ≤ t.config.scrollback) := by
  induction acts generalizing t with
  | nil => exact ⟨rfl, fun _ h => ⟨h, rfl⟩, fun h => h⟩
  | cons a as ih =>
    obtain ⟨h1, h2, h3⟩ := handle_action_spec t a
    obtain ⟨i1, i2, i3⟩ := ih (t.handle_action a)
    rw [h1] at i3
    refine ⟨i1.trans h1, ?_, ?_⟩
    · intro hall halt
      obtain ⟨a1, a2⟩ := h2 (hall a (by simp)) halt
      obtain ⟨b1, b2⟩ := i2 (fun x hx => hall x (by simp [hx])) a1
      exact ⟨b1, b2.trans a2⟩
    · intro h
      exact i3 (h3 h)

theorem handle_action_cursor_bounds (t : EmbeddedTerminal) (a : Action)
    (hc : 1 ≤ t.config.cols) (hr : 1 ≤ t.config.rows)
    (hcol : t.cursor.col < t.config.cols) (hrow : t.cursor.row < t.config.rows)
    (hsv : savedOk t.config.cols t.config.rows t.saved_cursor) :
    (t.handle_action a).cursor.col < t.config.cols ∧
    (t.handle_action a).cursor.row < t.config.rows ∧
    savedOk t.config.cols t.config.rows (t.handle_action a).saved_cursor := by
  cases a with
  | Print c =>
    obtain ⟨p1, p2, p3, p4, p5, p6, p7⟩ := print_char_spec t c
    obtain ⟨b1, b2⟩ := p6 hc hr hrow
    refine ⟨b1, b2, ?_⟩
    show savedOk t.config.cols t.config.rows (t.print_char c).saved_cursor
    rw [p2]
    exact hsv
  | PrintString s =>
    obtain ⟨i1, i2, i3, i4, i5, i6, i7⟩ := print_string_fold_spec s.data t
    obtain ⟨b1, b2⟩ := i6 hc hr hcol hrow
    refine ⟨b1, b2, ?_⟩
    show savedOk t.config.cols t.config.rows
      (s.data.foldl EmbeddedTerminal.print_char t).saved_cursor
    rw [i2]
    exact hsv
  | Control ctrl =>
    cases ctrl <;>
      first
        | exact ⟨hcol, hrow, hsv⟩
        | exact ⟨hc, hrow, hsv⟩
        | exact ⟨Nat.lt_of_le_of_lt (Nat.sub_le _ _) hcol, hrow, hsv⟩
        | (obtain ⟨n1, n2, n3, n4, n5, n6, n7, n8⟩ := newline_spec t
           refine ⟨lt_of_eq_of_lt n6 hcol, n7 hr, ?_⟩
           show savedOk t.config.cols t.config.rows t.newline.saved_cursor
           rw [n2]
           exact hsv)
        | (by_cases htab : t.config.cols ≤ ((t.cursor.col / 8) + 1) * 8 <;>
            refine ⟨?_, ?_, ?_⟩ <;>
              (try simp [EmbeddedTerminal.handle_action,
                EmbeddedTerminal.handle_control, htab]) <;>
              first
                | omega
                | exact hsv)
  | CSI op =>
    cases op with
    | CursorOp cop =>
      cases cop <;>
        first
          | exact ⟨hcol, hrow, hcol, hrow⟩
          | exact ⟨hcol, hrow, hsv⟩
          | (refine ⟨?_, ?_, hsv⟩ <;>
              simp only [EmbeddedTerminal.handle_action, EmbeddedTerminal.handle_csi,
                EmbeddedTerminal.handle_cursor] <;>
              omega)
          | (rcases hs : t.saved_cursor with _ | p
             · refine ⟨?_, ?_, ?_⟩ <;>
                 simp only [EmbeddedTerminal.handle_action, EmbeddedTerminal.handle_csi,
                   EmbeddedTerminal.handle_cursor, hs]
               · exact hcol
               · exact hrow
               · exact trivial
             · rw [hs] at hsv
               refine ⟨?_, ?_, ?_⟩ <;>
                 simp only [EmbeddedTerminal.handle_action, EmbeddedTerminal.handle_csi,
                   EmbeddedTerminal.handle_cursor, hs]
               · exact hsv.1
               · exact hsv.2
               · exact hsv)
    | Edit eop =>
      cases eop <;>
        first
          | exact ⟨hcol, hrow, hsv⟩
          | (rename_i k
             cases k <;> exact ⟨hcol, hrow, hsv⟩)
    | Sgr sop =>
      cases sop <;> exact ⟨hcol, hrow, hsv⟩
    | Mode mop =>
      cases mop with
      | SetDecPrivateMode code =>
        cases code <;> cases halt : t.in_alternate_screen <;>
          (refine ⟨?_, ?_, ?_⟩ <;>
            (try simp [EmbeddedTerminal.handle_action, EmbeddedTerminal.handle_csi,
              EmbeddedTerminal.handle_mode, EmbeddedTerminal.set_dec_mode, halt]) <;>
            first
              | omega
              | exact hsv
              | trivial)
      | ResetDecPrivateMode code =>
        cases code <;> cases halt : t.in_alternate_screen <;>
          rcases hs2 : t.saved_primary with _ | prim <;>
            (refine ⟨?_, ?_, ?_⟩ <;>
              (try simp [EmbeddedTerminal.handle_action, EmbeddedTerminal.handle_csi,
                EmbeddedTerminal.handle_mode, EmbeddedTerminal.set_dec_mode, halt, hs2]) <;>
              first
                | omega
                | exact hsv
                | trivial)
      | OtherMode =>
        exact ⟨hcol, hrow, hsv⟩
    | Device => exact ⟨hcol, hrow, hsv⟩
    | Window => exact ⟨hcol, hrow, hsv⟩
    | OtherCSI => exact ⟨hcol, hrow, hsv⟩
  | Esc esc =>
    cases esc with
    | DecSaveCursorPosition => exact ⟨hcol, hrow, hcol, hrow⟩
    | DecRestoreCursorPosition =>
      rcases hs : t.saved_cursor with _ | p
      · refine ⟨?_, ?_, ?_⟩ <;>
          simp only [EmbeddedTerminal.handle_action, EmbeddedTerminal.handle_esc, hs]
        · exact hcol
        · exact hrow
        · exact trivial
      · rw [hs] at hsv
        refine ⟨?_, ?_, ?_⟩ <;>
          simp only [EmbeddedTerminal.handle_action, EmbeddedTerminal.handle_esc, hs]
        · exact hsv.1
        · exact hsv.2
        · exact hsv
    | ReverseIndex =>
      refine ⟨?_, ?_, ?_⟩ <;>
        simp only [EmbeddedTerminal.handle_action, EmbeddedTerminal.handle_esc] <;>
        split <;> (try simp) <;>
        first
          | exact hcol
          | exact hrow
          | exact hsv
          | omega
    | Index =>
      obtain ⟨n1, n2, n3, n4, n5, n6, n7, n8⟩ := newline_spec t
      refine ⟨lt_of_eq_of_lt n6 hcol, n7 hr, ?_⟩
      show savedOk t.config.cols t.config.rows t.newline.saved_cursor
      rw [n2]
      exact hsv
    | NextLine =>
      obtain ⟨n1, n2, n3, n4, n5, n6, n7, n8⟩ :=
        newline_spec { t with cursor := { t.cursor with col := 0 } }
      refine ⟨lt_of_eq_of_lt n6 hc, n7 hr, ?_⟩
      show savedOk t.config.cols t.config.rows
        (EmbeddedTerminal.newline { t with cursor := { t.cursor with col := 0 } }).saved_cursor
      rw [n2]
      exact hsv
    | FullReset => exact ⟨hc, hr, hsv⟩
    | OtherEsc => exact ⟨hcol, hrow, hsv⟩
  | OperatingSystemCommand => exact ⟨hcol, hrow, hsv⟩
  | DeviceControl => exact ⟨hcol, hrow, hsv⟩
  | Sixel => exact ⟨hcol, hrow, hsv⟩
  | GraphicsOther => exact ⟨hcol, hrow, hsv⟩

/-! ### C3: cursor stays in bounds -/

/-- C3 counterexample: `resize` (src/terminal/mod.rs:133-137) updates the
dimensions without re-clamping the cursor, so placing the cursor at
(col 9, row 4) on a 20x10 terminal and then resizing to 5x3 leaves the
cursor out of bounds, refuting the claim for the resize mutation. -/
theorem resize_leaves_cursor_out_of_bounds_cex :
    ¬ cursorInBounds (((EmbeddedTerminal.new ⟨20, 10, 100, true⟩).handle_action
        (Action.CSI (CSIOp.CursorOp (CursorOp.Position 5 10)))).resize 5 3) := by
  decide

/-- C3 (amended): after every parsed-action mutation (printing, control
codes, cursor operations, erase/edit operations, attribute and mode
changes, full reset) the cursor — and the saved-cursor slot — remain inside
`[0, cols) x [0, rows)`, provided both dimensions are positive and the
state satisfied the invariant before.  `resize`, however, does not re-clamp
the cursor, so a shrinking resize can leave it out of bounds until the next
cursor mutation. -/
theorem action_preserves_cursor_bounds (t : EmbeddedTerminal) (a : Action)
    (hc : 1 ≤ t.config.cols) (hr : 1 ≤ t.config.rows)
    (hcur : cursorInBounds t) (hsv : savedCursorInBounds t) :
    cursorInBounds (t.handle_action a) ∧ savedCursorInBounds (t.handle_action a) := by
  obtain ⟨b1, b2, b3⟩ := handle_action_cursor_bounds t a hc hr hcur.1 hcur.2 hsv
  have hcfg : (t.handle_action a).config = t.config := (handle_action_spec t a).1
  refine ⟨⟨?_, ?_⟩, ?_⟩
  · rw [hcfg]
    exact b1
  · rw [hcfg]
    exact b2
  · show savedOk (t.handle_action a).config.cols (t.handle_action a).config.rows
      (t.handle_action a).saved_cursor
    rw [hcfg]
    exact b3

/-- Witness for C3 (amended) on a fresh default terminal printing one
character. -/
theorem action_preserves_cursor_bounds_witness :
    cursorInBounds
      ((EmbeddedTerminal.new TerminalConfig.defaultCfg).handle_action (Action.Print 'a')) ∧
    savedCursorInBounds
      ((EmbeddedTerminal.new TerminalConfig.defaultCfg).handle_action (Action.Print 'a')) :=
  action_preserves_cursor_bounds (EmbeddedTerminal.new TerminalConfig.defaultCfg)
    (Action.Print 'a') (by decide) (by decide) (by decide) True.intro

/-! ### C7: erase operations and the fill attribute -/

/-- C7 counterexample: on a fresh 4x2 terminal, after SGR foreground red
(palette 1) and printing `A`, erase-to-start-of-line fills the erased cells
via `Change::Text(" ")`, which writes with the surface's current
attributes — the pen — not the default attribute: the erased cell 0 of
row 0 carries foreground palette 1. -/
theorem erase_to_start_uses_pen_cex :
    cellAt (((EmbeddedTerminal.new ⟨4, 2, 10, true⟩).applyActions
        [Action.CSI (CSIOp.Sgr (SgrOp.SetForeground (ColorAttr.PaletteIndex 1))),
         Action.Print 'A',
         Action.CSI (CSIOp.Edit (EditOp.EraseInLine
           EraseInLineKind.EraseToStartOfLine))]).surface) 0 0
      = ⟨' ', { CellAttributes.default with foreground := ColorAttr.PaletteIndex 1 }⟩ ∧
    ⟨' ', { CellAttributes.default with foreground := ColorAttr.PaletteIndex 1 }⟩ ≠
      Cell.blank := by
  constructor
  · decide
  · decide

/-- C7 (amended): erase-to-end-of-line, erase-whole-line, erase-whole-
display and erase-to-end-of-display fill the affected cells with the
default attribute; but erase-to-start-of-line and erase-to-start-of-display
fill columns `[0, cursor.col]` of the cursor row with blanks carrying the
SURFACE's current attributes (the pen as of the last print), not the
default attribute; erase-scrollback clears the archived rows only and
leaves the live surface untouched. -/
theorem erase_fill_attrs (t : EmbeddedTerminal)
    (hwf : gridWF t.surface)
    (hw : t.surface.width = t.config.cols)
    (hh : t.surface.height = t.config.rows)
    (hcol : t.cursor.col < t.config.cols)
    (hrow : t.cursor.row < t.config.rows) :
    (∀ j, t.cursor.col ≤ j → j < t.config.cols →
      cellAt (t.handle_edit (EditOp.EraseInLine EraseInLineKind.EraseToEndOfLine)).surface
        t.cursor.row j = Cell.blank) ∧
    (∀ j, j < t.config.cols →
      cellAt (t.handle_edit (EditOp.EraseInLine EraseInLineKind.EraseLine)).surface
        t.cursor.row j = Cell.blank) ∧
    (∀ y, y < t.config.rows → ∀ j, j < t.config.cols →
      cellAt (t.handle_edit (EditOp.EraseInDisplay EraseInDisplayKind.EraseDisplay)).surface
        y j = Cell.blank) ∧
    ((∀ j, t.cursor.col ≤ j → j < t.config.cols →
      cellAt (t.handle_edit
          (EditOp.EraseInDisplay EraseInDisplayKind.EraseToEndOfDisplay)).surface
        t.cursor.row j = Cell.blank) ∧
     (∀ y, t.cursor.row < y → y < t.config.rows → ∀ j, j < t.config.cols →
      cellAt (t.handle_edit
          (EditOp.EraseInDisplay EraseInDisplayKind.EraseToEndOfDisplay)).surface
        y j = Cell.blank)) ∧
    ((∀ y, y < t.cursor.row → ∀ j, j < t.config.cols →
      cellAt (t.handle_edit
          (EditOp.EraseInDisplay EraseInDisplayKind.EraseToStartOfDisplay)).surface
        y j = Cell.blank) ∧
     (∀ j, j ≤ t.cursor.col →
      cellAt (t.handle_edit
          (EditOp.EraseInDisplay EraseInDisplayKind.EraseToStartOfDisplay)).surface
        t.cursor.row j = ⟨' ', t.surface.attrs⟩)) ∧
    (∀ j, j ≤ t.cursor.col →
      cellAt (t.handle_edit (EditOp.EraseInLine EraseInLineKind.EraseToStartOfLine)).surface
        t.cursor.row j = ⟨' ', t.surface.attrs⟩) ∧
    ((t.handle_edit (EditOp.EraseInDisplay EraseInDisplayKind.EraseScrollback)).scrollback
        = [] ∧
     (t.handle_edit (EditOp.EraseInDisplay EraseInDisplayKind.EraseScrollback)).surface
        = t.surface) := by
  have hx1 : (t.surface.setCursor t.cursor.col t.cursor.row).xpos = t.cursor.col := by
    simp only [Surface.setCursor]
    omega
  have hy1 : (t.surface.setCursor t.cursor.col t.cursor.row).ypos = t.cursor.row := by
    simp only [Surface.setCursor]
    omega
  have hx0 : (t.surface.setCursor 0 t.cursor.row).xpos = 0 := by
    simp only [Surface.setCursor]
    omega
  have hy0 : (t.surface.setCursor 0 t.cursor.row).ypos = t.cursor.row := by
    simp only [Surface.setCursor]
    omega
  obtain ⟨e1, e2, e3, e4, e5, e6⟩ := clearToEndOfLine_spec
    (t.surface.setCursor t.cursor.col t.cursor.row) ColorAttr.Default hwf
    (by rw [hy1]; show t.cursor.row < t.surface.height; omega)
    (by rw [hx1]; show t.cursor.col ≤ t.surface.width; omega)
  obtain ⟨f1, f2, f3, f4, f5, f6⟩ := clearToEndOfLine_spec
    (t.surface.setCursor 0 t.cursor.row) ColorAttr.Default hwf
    (by rw [hy0]; show t.cursor.row < t.surface.height; omega)
    (by rw [hx0]; show 0 ≤ t.surface.width; omega)
  refine ⟨?_, ?_, ?_, ?_, ?_, ?_, rfl, rfl⟩
  · -- erase to end of line
    intro j hj1 hj2
    have h := e5 j (by rw [hx1]; exact hj1) (by show j < t.surface.width; omega)
    rwa [hy1, blankWith_default] at h
  · -- erase whole line
    intro j hj
    have h := f5 j (by rw [hx0]; omega) (by show j < t.surface.width; omega)
    rwa [hy0, blankWith_default] at h
  · -- erase whole display
    intro y hy j hj
    obtain ⟨g1, g2, g3, g4⟩ := clearScreen_spec t.surface ColorAttr.Default hwf
    have h := g4 y (by omega) j (by omega)
    rwa [blankWith_default] at h
  · -- erase to end of display
    obtain ⟨k1, k2, k3, k4, k5, k6⟩ := clear_rows_fold_spec
      (List.range' (t.cursor.row + 1) (t.config.rows - (t.cursor.row + 1)))
      ((t.surface.setCursor t.cursor.col t.cursor.row).clearToEndOfLine ColorAttr.Default)
      ColorAttr.Default e4
      (by
        intro y hy
        rw [List.mem_range'_1] at hy
        rw [e2]
        show y < (t.surface.setCursor t.cursor.col t.cursor.row).height
        show y < t.surface.height
        omega)
    constructor
    · intro j hj1 hj2
      have hnotmem : t.cursor.row ∉
          List.range' (t.cursor.row + 1) (t.config.rows - (t.cursor.row + 1)) := by
        rw [List.mem_range'_1]
        omega
      have h := k6 t.cursor.row hnotmem j
      have h2 := e5 j (by rw [hx1]; exact hj1) (by show j < t.surface.width; omega)
      rw [hy1, blankWith_default] at h2
      rw [h2] at h
      exact h
    · intro y hy1b hy2b j hj
      have hmem : y ∈
          List.range' (t.cursor.row + 1) (t.config.rows - (t.cursor.row + 1)) := by
        rw [List.mem_range'_1]
        omega
      have h := k5 y hmem j
        (by rw [e1]; show j < (t.surface.setCursor t.cursor.col t.cursor.row).width;
            show j < t.surface.width; omega)
      rwa [blankWith_default] at h
  · -- erase to start of display
    obtain ⟨k1, k2, k3, k4, k5, k6⟩ := clear_rows_fold_spec
      (List.range t.cursor.row) t.surface ColorAttr.Default hwf
      (by
        intro y hy
        rw [List.mem_range] at hy
        omega)
    set s1 := (List.range t.cursor.row).foldl
      (fun acc y => (acc.setCursor 0 y).clearToEndOfLine ColorAttr.Default) t.surface with hs1
    have hs2x : (s1.setCursor 0 t.cursor.row).xpos = 0 := by
      simp only [Surface.setCursor]
      omega
    have hs2y : (s1.setCursor 0 t.cursor.row).ypos = t.cursor.row := by
      simp only [Surface.setCursor]
      rw [k2]
      omega
    obtain ⟨m1, m2, m3, m4, m5, m6, m7, m8⟩ := spaces_fold_spec (t.cursor.col + 1)
      (s1.setCursor 0 t.cursor.row) k4
      (by rw [hs2y]; show t.cursor.row < s1.height; rw [k2]; omega)
      (by rw [hs2x]; show 0 + (t.cursor.col + 1) ≤ s1.width; rw [k1]; omega)
    constructor
    · intro y hy j hj
      have h := m8 y (by rw [hs2y]; omega) j
      have h2 : cellAt (s1.setCursor 0 t.cursor.row) y j = cellAt s1 y j := rfl
      have h3 := k5 y (by rw [List.mem_range]; exact hy) j (by omega)
      rw [blankWith_default] at h3
      rw [h2, h3] at h
      exact h
    · intro j hj
      have h := m7 j (by rw [hs2x]; omega) (by rw [hs2x]; omega)
      rw [hs2y] at h
      have hattrs : (s1.setCursor 0 t.cursor.row).attrs = t.surface.attrs := k3
      rw [hattrs] at h
      exact h
  · -- erase to start of line
    obtain ⟨m1, m2, m3, m4, m5, m6, m7, m8⟩ := spaces_fold_spec (t.cursor.col + 1)
      (t.surface.setCursor 0 t.cursor.row) hwf
      (by rw [hy0]; show t.cursor.row < t.surface.height; omega)
      (by rw [hx0]; show 0 + (t.cursor.col + 1) ≤ t.surface.width; omega)
    intro j hj
    have h := m7 j (by rw [hx0]; omega) (by rw [hx0]; omega)
    rw [hy0] at h
    exact h

/-- Witness for C7 (amended): on a 4x2 terminal that printed a red `A`,
erase-to-start-of-line leaves a red-pen blank in column 0 of the cursor
row. -/
theorem erase_fill_attrs_witness :
    cellAt (((EmbeddedTerminal.new ⟨4, 2, 10, true⟩).applyActions
        [Action.CSI (CSIOp.Sgr (SgrOp.SetForeground (ColorAttr.PaletteIndex 1))),
         Action.Print 'A']).handle_edit
          (EditOp.EraseInLine EraseInLineKind.EraseToStartOfLine)).surface 0 0
      = ⟨' ', ((EmbeddedTerminal.new ⟨4, 2, 10, true⟩).applyActions
        [Action.CSI (CSIOp.Sgr (SgrOp.SetForeground (ColorAttr.PaletteIndex 1))),
         Action.Print 'A']).surface.attrs⟩ :=
  (erase_fill_attrs ((EmbeddedTerminal.new ⟨4, 2, 10, true⟩).applyActions
        [Action.CSI (CSIOp.Sgr (SgrOp.SetForeground (ColorAttr.PaletteIndex 1))),
         Action.Print 'A'])
      ⟨by decide, by decide⟩ (by decide) (by decide) (by decide)
      (by decide)).2.2.2.2.2.1 0 (by decide)

/-! ### C5: scrollback capacity and FIFO eviction -/

/-- C5: starting from a fresh terminal, no sequence of parsed actions can
make the scrollback longer than the configured capacity; and whenever the
scrollback is exactly at a positive capacity, archiving one more row
discards the oldest row first (`remove(0)`). -/
theorem scrollback_capacity (cfg : TerminalConfig) (acts : List Action)
    (t : EmbeddedTerminal) (line : List Cell)
    (hcap : 0 < t.config.scrollback)
    (hfull : t.scrollback.length = t.config.scrollback) :
    ((EmbeddedTerminal.new cfg).applyActions acts).scrollback.length ≤ cfg.scrollback ∧
    (t.push_to_scrollback line).scrollback = t.scrollback.tail ++ [line] := by
  constructor
  · exact (applyActions_spec acts (EmbeddedTerminal.new cfg)).2.2 (Nat.zero_le _)
  · cases hsb : t.scrollback with
    | nil =>
      rw [hsb] at hfull
      simp at hfull
      omega
    | cons x xs =>
      rw [hsb] at hfull
      simp only [List.length_cons] at hfull
      simp only [EmbeddedTerminal.push_to_scrollback, hsb]
      rw [show ((x :: xs) ++ [line]).length - t.config.scrollback = 1 by simp; omega]
      simp

/-- Witness for C5 at capacity 1 with a full scrollback. -/
theorem scrollback_capacity_witness :
    ((EmbeddedTerminal.new ⟨2, 2, 1, true⟩).applyActions [Action.Print 'a']).scrollback.length ≤ 1 ∧
    (EmbeddedTerminal.push_to_scrollback
        { EmbeddedTerminal.new ⟨2, 2, 1, true⟩ with scrollback := [blankRow 2] }
        (blankRow 2)).scrollback
      = [blankRow 2].tail ++ [blankRow 2] :=
  scrollback_capacity ⟨2, 2, 1, true⟩ [Action.Print 'a']
    { EmbeddedTerminal.new ⟨2, 2, 1, true⟩ with scrollback := [blankRow 2] }
    (blankRow 2) (by decide) (by decide)

/-! ### C1: alternate-screen round trip -/

/-- C1: from any state not in alternate-screen mode, enabling alternate
screen swaps in a freshly cleared grid and stashes the previous grid; after
any sequence of parsed actions that does not itself leave alternate mode,
disabling restores the stashed primary grid verbatim — nothing printed
while in alternate mode appears in the restored grid. -/
theorem alt_screen_roundtrip (t : EmbeddedTerminal) (acts : List Action)
    (h0 : t.in_alternate_screen = false)
    (hno : ∀ a ∈ acts, ¬ disables_alt a) :
    (t.handle_action enableAltAction).surface =
      Surface.new t.config.cols t.config.rows ∧
    (t.handle_action enableAltAction).saved_primary = some t.surface ∧
    (((t.handle_action enableAltAction).applyActions acts).handle_action
        disableAltAction).surface = t.surface ∧
    (((t.handle_action enableAltAction).applyActions acts).handle_action
        disableAltAction).in_alternate_screen = false := by
  have e1 : t.handle_action enableAltAction =
      { t with
        saved_primary := some t.surface
        surface := Surface.new t.config.cols t.config.rows
        in_alternate_screen := true } := by
    simp [enableAltAction, EmbeddedTerminal.handle_action, EmbeddedTerminal.handle_csi,
      EmbeddedTerminal.handle_mode, EmbeddedTerminal.set_dec_mode, h0]
  have halt2 := (applyActions_spec acts (t.handle_action enableAltAction)).2.1 hno
    (by rw [e1])
  obtain ⟨ha, hp⟩ := halt2
  have hp2 : ((t.handle_action enableAltAction).applyActions acts).saved_primary =
      some t.surface := by
    rw [hp, e1]
  have d : ∀ u : EmbeddedTerminal, u.in_alternate_screen = true →
      u.saved_primary = some t.surface →
      (u.handle_action disableAltAction).surface = t.surface ∧
      (u.handle_action disableAltAction).in_alternate_screen = false := by
    intro u hu hs
    simp [disableAltAction, EmbeddedTerminal.handle_action, EmbeddedTerminal.handle_csi,
      EmbeddedTerminal.handle_mode, EmbeddedTerminal.set_dec_mode, hu, hs]
  obtain ⟨d1, d2⟩ := d _ ha hp2
  exact ⟨by rw [e1], by rw [e1], d1, d2⟩

/-- Witness for C1: a 2x2 terminal entering alternate mode, printing a
character there, and leaving again has its primary grid back verbatim. -/
theorem alt_screen_roundtrip_witness :
    ((((EmbeddedTerminal.new ⟨2, 2, 10, true⟩).handle_action enableAltAction).applyActions
        [Action.Print 'q']).handle_action disableAltAction).surface =
      (EmbeddedTerminal.new ⟨2, 2, 10, true⟩).surface :=
  (alt_screen_roundtrip (EmbeddedTerminal.new ⟨2, 2, 10, true⟩) [Action.Print 'q']
    rfl (by decide)).2.2.1

/-! ### C2: alternate-screen scrolling leaks into the primary scrollback -/

/-- C2: evaluation of the code at the failing input.  On a fresh 2x2
terminal, entering alternate-screen mode and then printing `x` followed by
two line feeds scrolls the ALTERNATE grid — and `scroll_screen_up`
unconditionally archives the scrolled-off alternate top line (containing
`x`) into the primary scrollback, while the terminal is still in alternate
mode.  The spec requires that alternate-screen content is never archived
into the primary scrollback. -/
theorem alternate_scroll_pollutes_scrollback :
    (((EmbeddedTerminal.new ⟨2, 2, 10, true⟩).handle_action enableAltAction).applyActions
        [Action.Print 'x', Action.Control ControlCode.LineFeed,
         Action.Control ControlCode.LineFeed]).in_alternate_screen = true ∧
    (((EmbeddedTerminal.new ⟨2, 2, 10, true⟩).handle_action enableAltAction).applyActions
        [Action.Print 'x', Action.Control ControlCode.LineFeed,
         Action.Control ControlCode.LineFeed]).scrollback
      = [[⟨'x', CellAttributes.default⟩, Cell.blank]] := by
  constructor
  · decide
  · decide

/-- Witness for C6 at a concrete state with one scrollback line and a
positive offset. -/
theorem scroll_navigation_ok_witness :
    (((EmbeddedTerminal.new TerminalConfig.defaultCfg).scroll_to_bottom.scroll_offset = 0 ∧
      (EmbeddedTerminal.new TerminalConfig.defaultCfg).scroll_to_bottom.follow_mode = true)) :=
  (scroll_navigation_ok (EmbeddedTerminal.new TerminalConfig.defaultCfg) 3
    (by decide) (fun _ => rfl)).2.2

end Darkwall
